import Mathlib

/-!
Shallow embedding of the contacts-manager bulk CSV import pipeline
(src/application/contact-importer.ts, src/infrastructure/database/
postgres-contact-repository.ts, src/domain/validation/contact-schema.ts)
together with proofs of the specification claims about it.

Modelling conventions:
- JavaScript numbers that only ever hold non-negative integers become Nat;
  Math.floor(x * 1.1) and Math.floor(x * 0.7) become x * 11 / 10 and
  x * 7 / 10 in Nat arithmetic (the IEEE-double product can differ from the
  exact rational by at most one unit in the floor for these ranges, which
  none of the proved band properties are sensitive to).
- The stream stages run strictly sequentially (one row fully processed,
  including any synchronous batch flush, before the next row), exactly as
  the object-mode Transform pipeline does; so the whole import is a fold
  over the row events.
- saveContacts outcomes are an environment: a function from batch sequence
  number to Option String (none = resolved, some msg = rejected with an
  Error whose message is msg).
- Wall-clock fields (startTime, processingTimeMs) and console logging are
  omitted; they influence no control flow.
-/

namespace ContactsManager

/-- Contact entity (src/domain/entities/contact.ts): email key, required
first name, nullable last name. The numeric id only appears on rows read
back from the database and plays no role in the import pipeline. -/
structure Contact where
  email : String
  firstName : String
  lastName : Option String
deriving Repr, DecidableEq

/-- Mutable import state shared by the pipeline stages
(interface ImportState in src/application/contact-importer.ts). -/
structure ImportState where
  validCount : Nat
  invalidCount : Nat
  totalCount : Nat
  currentBatch : Nat
  batchSize : Nat
  failedBatches : List Nat
  error : Option String
deriving Repr, DecidableEq

/-- Initial state built at the top of ContactImporter.import. -/
def initialImportState : ImportState :=
  { validCount := 0, invalidCount := 0, totalCount := 0, currentBatch := 0
    batchSize := 100, failedBatches := [], error := none }

/-- JavaScript String.prototype.includes: does pat occur as a contiguous
substring of s (at some character position)? -/
def containsSubstr (s pat : String) : Bool :=
  (List.range (s.data.length + 1)).any fun i => pat.data.isPrefixOf (s.data.drop i)

/-- Error classification used by BatchProcessor.processBatch: an error is
treated as transient when its message mentions a timeout or a network
problem; only the remaining (non-transient) errors set the fatal error. -/
def isTransientMessage (msg : String) : Bool :=
  containsSubstr msg "timeout" || containsSubstr msg "network"

/-- State effect of one BatchProcessor.processBatch call
(src/application/contact-importer.ts lines 65-100). The buffer copy handed
to saveContacts does not influence the state update, so the state part
takes only the save outcome. On success: currentBatch is incremented and
every 20th batch number grows batchSize by the factor 1.1 capped at 500.
On failure: the batch number is recorded in failedBatches, batchSize
shrinks by the factor 0.7 floored at 50, and a non-transient error message
is stored as the fatal error. -/
def processBatch (st : ImportState) (outcome : Option String) : ImportState :=
  let st1 : ImportState := { st with currentBatch := st.currentBatch + 1 }
  match outcome with
  | none =>
      if st1.currentBatch % 20 = 0 ∧ st1.batchSize < 500 then
        { st1 with batchSize := min 500 (st1.batchSize * 11 / 10) }
      else st1
  | some msg =>
      let st2 : ImportState :=
        { st1 with failedBatches := st1.failedBatches ++ [st1.currentBatch] }
      let st3 : ImportState :=
        if st2.batchSize > 50 then
          { st2 with batchSize := max 50 (st2.batchSize * 7 / 10) }
        else st2
      if isTransientMessage msg then st3 else { st3 with error := some msg }

/-- One row event as seen by the two Transform stages: either the validator
emitted a Contact downstream, or it swallowed the row as invalid. -/
inductive RowEvent where
  | valid (c : Contact)
  | invalid
deriving Repr, DecidableEq

/-- Combined state of the two pipeline stages: the shared ImportState, the
BatchProcessor buffer, and the log of batches handed to saveContacts
(sequence number paired with batch contents). -/
structure Pipeline where
  state : ImportState
  buffer : List Contact
  attempts : List (Nat × List Contact)
deriving Repr, DecidableEq

/-- The pipeline at import start. -/
def initPipeline : Pipeline :=
  { state := initialImportState, buffer := [], attempts := [] }

/-- Drain the buffer into saveContacts: the whole buffer becomes batch
number currentBatch + 1 and the state is updated by processBatch with that
batch's save outcome. The buffer is cleared before the save resolves. -/
def flushBuffer (env : Nat → Option String) (p : Pipeline) : Pipeline :=
  { state := processBatch p.state (env (p.state.currentBatch + 1))
    buffer := []
    attempts := p.attempts ++ [(p.state.currentBatch + 1, p.buffer)] }

/-- One row through both stages. A valid contact is counted by
BatchProcessor._transform (validCount and totalCount) and buffered,
flushing synchronously when the buffer reaches batchSize. An invalid row
is counted by ContactValidator._transform's catch branch (invalidCount and
totalCount) and not forwarded. -/
def stepRow (env : Nat → Option String) (p : Pipeline) : RowEvent → Pipeline
  | .valid c =>
      let st : ImportState :=
        { p.state with validCount := p.state.validCount + 1,
                       totalCount := p.state.totalCount + 1 }
      let buf := p.buffer ++ [c]
      if buf.length ≥ st.batchSize then
        flushBuffer env { state := st, buffer := buf, attempts := p.attempts }
      else
        { state := st, buffer := buf, attempts := p.attempts }
  | .invalid =>
      { p with state :=
          { p.state with invalidCount := p.state.invalidCount + 1,
                         totalCount := p.state.totalCount + 1 } }

/-- BatchProcessor._flush: on end of input, a non-empty remaining buffer is
flushed as a final (possibly undersized) batch. -/
def finishStream (env : Nat → Option String) (p : Pipeline) : Pipeline :=
  if p.buffer.length > 0 then flushBuffer env p else p

/-- Run the pipeline over a list of row events. -/
def runRows (env : Nat → Option String) (p : Pipeline)
    (events : List RowEvent) : Pipeline :=
  events.foldl (stepRow env) p

/-- A whole import run: all rows, then the end-of-stream flush. -/
def importRun (env : Nat → Option String) (events : List RowEvent) : Pipeline :=
  finishStream env (runRows env initPipeline events)

/-- Result shape returned by ContactImporter.import (processingTimeMs
omitted). -/
structure ImportResults where
  success : Bool
  error : Option String
  totalProcessed : Nat
  validContacts : Nat
  invalidContacts : Nat
deriving Repr, DecidableEq

/-- ContactImporter.import, success branch (lines 204-212): once the stream
finishes, it returns success := true with the counters, never consulting
state.error or state.failedBatches. The catch branch (success := false) is
reachable only through stream I/O failures, which the embedding does not
model; processBatch never rethrows, so batch failures cannot reach it. -/
def importResult (env : Nat → Option String) (events : List RowEvent) :
    ImportResults :=
  let p := importRun env events
  { success := true, error := none
    totalProcessed := p.state.totalCount
    validContacts := p.state.validCount
    invalidContacts := p.state.invalidCount }

/-- A parsed CSV data row: header name to raw cell value, as produced by
csv-parser. -/
abbrev Row := List (String × String)

/-- JavaScript object field access row[key]. -/
def lookupField (row : Row) (k : String) : Option String :=
  (row.find? fun kv => kv.1 == k).map (·.2)

/-- JavaScript String.prototype.trim: strip leading and trailing
whitespace. -/
def trimString (s : String) : String :=
  ⟨((s.data.dropWhile Char.isWhitespace).reverse.dropWhile
      Char.isWhitespace).reverse⟩

/-- JavaScript String.prototype.toLowerCase (over the alphabet the pipeline
handles). -/
def lowerString (s : String) : String :=
  ⟨s.data.map Char.toLower⟩

/-- The mapValues option of the csv-parser in ContactImporter.import trims
every cell value (an empty cell is falsy and stays empty, which trims to
itself as well). -/
def trimValues (row : Row) : Row :=
  row.map fun kv => (kv.1, trimString kv.2)

/-- Column mapping candidate (the resolved logical roles). -/
structure Columns where
  email : Option String
  firstName : Option String
  lastName : Option String
deriving Repr, DecidableEq

/-- ContactImporter.identifyColumnsFromStream (lines 229-262): the headers
event handler assigns the three fixed names unconditionally, ignoring the
actual header list, and always resolves; no MissingColumnsError path
exists. The caller additionally discards the returned mapping. -/
def identifyColumnsFromStream (_headers : List String) : Columns :=
  { email := some "email", firstName := some "first_name"
    lastName := some "last_name" }

/-- ContactSchema.parse (src/domain/validation/contact-schema.ts) on the
object built by ContactValidator.validateAndCreateContact. The shape test
of zod's .email() is a library regex the spec leaves out of scope, so the
schema is parametric in it (emailOk). email: required, format-checked,
then lowercased and trimmed. firstName: required, non-empty, then trimmed.
lastName: optional and nullable, at most 255 long, trimmed, with the empty
string collapsing to null. A sibling iteration of the schema adds an SQL
metacharacter denylist; no claim below depends on it. -/
def parseContact (emailOk : String → Bool)
    (email firstName lastName : Option String) : Option Contact :=
  match email, firstName with
  | some e, some f =>
      if emailOk e && (f != "") &&
          (match lastName with | some l => decide (l.length ≤ 255) | none => true) then
        some { email := trimString (lowerString e)
               firstName := trimString f
               lastName :=
                 match lastName with
                 | some l => if l = "" then none else some (trimString l)
                 | none => none }
      else none
  | _, _ => none

/-- ContactValidator.validateAndCreateContact (lines 127-153): the three
fields are read under the fixed names email, first_name, last_name and fed
to the schema. -/
def validateRow (emailOk : String → Bool) (row : Row) : Option Contact :=
  parseContact emailOk (lookupField row "email")
    (lookupField row "first_name") (lookupField row "last_name")

/-- The row event the validator stage produces for one csv-parser row. -/
def rowEvent (emailOk : String → Bool) (row : Row) : RowEvent :=
  match validateRow emailOk (trimValues row) with
  | some c => .valid c
  | none => .invalid

/-- End-to-end import of parsed data rows (the header row only determines
the field names the Row objects carry; the resolved column mapping itself
is discarded by import, see identifyColumnsFromStream). -/
def importCsv (emailOk : String → Bool) (env : Nat → Option String)
    (rows : List Row) : ImportResults :=
  importResult env (rows.map (rowEvent emailOk))

/-- Executable stand-in for the out-of-scope email shape regex, used to
instantiate witnesses: the value must contain an at sign. -/
def sampleEmailOk (s : String) : Bool := s.data.any (· == Char.ofNat 64)

/-! Repository layer: PostgresContactRepository
(src/infrastructure/database/postgres-contact-repository.ts). -/

/-- Retry bound of PostgresContactRepository.saveMany. -/
def MAX_RETRIES : Nat := 5

/-- Base retry delay of PostgresContactRepository.saveMany, milliseconds. -/
def RETRY_DELAY_MS : Nat := 3000

deriving instance DecidableEq for Except

/-- Observable trace of one chunk's retry loop: the retryCount values at
which saveBatch was attempted, the delays slept before retries, and either
the retryCount of the successful attempt or the error finally rethrown. -/
structure RetryTrace where
  attempts : List Nat
  delays : List Nat
  result : Except String Nat
deriving Repr, DecidableEq

/-- The while loop of saveMany (lines 49-70) for one chunk, with the
remaining retry budget (MAX_RETRIES + 1 - retryCount at entry) made an
explicit structural argument. outcome gives each attempt's saveBatch
result by retryCount. Before a retry (retryCount above zero) the loop
sleeps RETRY_DELAY_MS * 2 ^ (retryCount - 1). Any caught error increments
retryCount and, once retryCount exceeds MAX_RETRIES (budget exhausted), is
rethrown; otherwise the next attempt follows regardless of the error's
message. -/
def runRetryGo (outcome : Nat → Option String) : Nat → Nat → RetryTrace
  | retryCount, 0 =>
      let pre : List Nat :=
        if retryCount > 0 then [RETRY_DELAY_MS * 2 ^ (retryCount - 1)] else []
      match outcome retryCount with
      | none =>
          { attempts := [retryCount], delays := pre, result := .ok retryCount }
      | some msg =>
          { attempts := [retryCount], delays := pre, result := .error msg }
  | retryCount, r + 1 =>
      let pre : List Nat :=
        if retryCount > 0 then [RETRY_DELAY_MS * 2 ^ (retryCount - 1)] else []
      match outcome retryCount with
      | none =>
          { attempts := [retryCount], delays := pre, result := .ok retryCount }
      | some _ =>
          let rest := runRetryGo outcome (retryCount + 1) r
          { attempts := retryCount :: rest.attempts
            delays := pre ++ rest.delays
            result := rest.result }

/-- The whole retry loop of saveMany for one chunk: retryCount starts at 0
with MAX_RETRIES retries available. -/
def runRetryLoop (outcome : Nat → Option String) : RetryTrace :=
  runRetryGo outcome 0 MAX_RETRIES

/-- Fixed chunk bound of saveMany (const SUPABASE_BATCH_SIZE). -/
def SUPABASE_BATCH_SIZE : Nat := 500

/-- The slice taken by saveMany for the batch with the given 1-based
number: contacts.slice(startIdx, startIdx + SUPABASE_BATCH_SIZE) with
startIdx = (batchNumber - 1) * SUPABASE_BATCH_SIZE. -/
def chunkAt (contacts : List Contact) (bn : Nat) : List Contact :=
  (contacts.drop ((bn - 1) * SUPABASE_BATCH_SIZE)).take SUPABASE_BATCH_SIZE

/-- One saveBatch attempt as observed from outside: which chunk (batch
number, starting at 1), at which retryCount, and how many records the
executed chunk held. -/
structure AttemptRec where
  batchNumber : Nat
  retryCount : Nat
  chunkLen : Nat
deriving Repr, DecidableEq

/-- The chunk loop of saveMany, structurally recursive on the number of
chunks still to process: chunks run in order, each under its own retry
loop; a chunk whose retries are exhausted rethrows, so no later chunk is
attempted. Returns the attempt trace and the rethrown error, if any. -/
def saveManyGo (outcome : Nat → Nat → Option String)
    (contacts : List Contact) : Nat → Nat → List AttemptRec × Option String
  | 0, _ => ([], none)
  | remaining + 1, bn =>
      let chunk := chunkAt contacts bn
      let tr := runRetryLoop (outcome bn)
      let recs := tr.attempts.map fun rc =>
        { batchNumber := bn, retryCount := rc, chunkLen := chunk.length : AttemptRec }
      match tr.result with
      | .error msg => (recs, some msg)
      | .ok _ =>
          let more := saveManyGo outcome contacts remaining (bn + 1)
          (recs ++ more.1, more.2)

/-- PostgresContactRepository.saveMany (lines 27-74): an empty list returns
immediately; otherwise the contact list is sliced into
Math.ceil(length / SUPABASE_BATCH_SIZE) chunks of SUPABASE_BATCH_SIZE and
each chunk is saved under the retry loop. The outcome environment gives
saveBatch's result per (batch number, retryCount). -/
def saveMany (outcome : Nat → Nat → Option String) (contacts : List Contact) :
    List AttemptRec × Option String :=
  if contacts.length = 0 then ([], none)
  else
    saveManyGo outcome contacts
      ((contacts.length + SUPABASE_BATCH_SIZE - 1) / SUPABASE_BATCH_SIZE) 1

/-! Persisted-store semantics of the upsert statement issued by saveBatch:
INSERT INTO contacts (email, first_name, last_name) VALUES ...
ON CONFLICT (email) DO UPDATE SET first_name = EXCLUDED.first_name,
last_name = EXCLUDED.last_name. The table is a list of rows in physical
order; the ON CONFLICT clause updates the non-key fields of the
conflicting row in place, an absent key appends a fresh row. Records of a
batch apply in order (the part_006 iteration issues one prepared EXECUTE
per record over a single connection, which serializes them; the multi-row
statement of the current saveBatch has the same effect for batches without
an internal key conflict). -/

/-- One persisted row: email key, first name, nullable last name. -/
abbrev StoreRow := String × String × Option String

/-- The contacts table as a list of rows. -/
abbrev Store := List StoreRow

/-- The SET clause of the ON CONFLICT branch applied to one existing row:
a row whose key conflicts with the incoming record gets the incoming
non-key fields, any other row is untouched. -/
def applyConflictUpdate (c : Contact) (r : StoreRow) : StoreRow :=
  if r.1 == c.email then (r.1, c.firstName, c.lastName) else r

/-- Upsert of a single record: on a key conflict update the conflicting
row in place, otherwise insert a fresh row. -/
def upsertOne (s : Store) (c : Contact) : Store :=
  if s.any fun r => r.1 == c.email then s.map (applyConflictUpdate c)
  else s ++ [(c.email, c.firstName, c.lastName)]

/-- Upsert of a record list, in list order. -/
def upsertMany (s : Store) (cs : List Contact) : Store :=
  cs.foldl upsertOne s

/-- The key column of the table. -/
def storeKeys (s : Store) : List String := s.map (·.1)

/-- SELECT of the non-key fields of the (first) row with the given key. -/
def lookupStore (s : Store) (k : String) : Option (String × Option String) :=
  (s.find? fun r => r.1 == k).map (·.2)

/-! Derived observations and invariant predicates the claims are stated
with. -/

/-- The stats invariant: every counted row is exactly one of valid or
invalid. -/
def statsInv (st : ImportState) : Prop :=
  st.totalCount = st.validCount + st.invalidCount

/-- The adaptive-threshold band: the flush threshold stays between the 50
floor and the 500 ceiling. -/
def bandInv (st : ImportState) : Prop :=
  50 ≤ st.batchSize ∧ st.batchSize ≤ 500

/-- Joint inductive invariant of the pipeline: stats, threshold band, and
the buffer holding strictly less than one threshold's worth of records. -/
def pipeInv (p : Pipeline) : Prop :=
  statsInv p.state ∧ bandInv p.state ∧ p.buffer.length < p.state.batchSize

/-- The contacts accepted by the validator within a list of row events. -/
def validContacts (events : List RowEvent) : List Contact :=
  events.filterMap fun e =>
    match e with
    | .valid c => some c
    | .invalid => none

/-- All records handed to saveContacts over an attempt log, in order. -/
def joinBatches (att : List (Nat × List Contact)) : List Contact :=
  (att.map Prod.snd).flatten

/-- Everything of the import state except the fatal-error field, for frame
statements about what the error path may not influence. -/
def coreView (st : ImportState) : Nat × Nat × Nat × Nat × Nat × List Nat :=
  (st.validCount, st.invalidCount, st.totalCount, st.currentBatch,
   st.batchSize, st.failedBatches)

/-- The successive conflict updates a store row undergoes when a record
list is upserted over a store already containing its key. -/
def applyAll (cs : List Contact) (r : StoreRow) : StoreRow :=
  cs.foldl (fun r c => applyConflictUpdate c r) r

/-- Upsert of a record list over a store already containing every key of
the list: each step is the pure ON CONFLICT update. -/
def replaceMany (s : Store) (cs : List Contact) : Store :=
  cs.foldl (fun t c => t.map (applyConflictUpdate c)) s

/-- The last record of the list carrying the given key, if any: the writer
that wins under last-writer-wins upserts. -/
def lastMatch (cs : List Contact) (k : String) : Option Contact :=
  cs.reverse.find? fun c => c.email == k

/-- Concrete contacts for counterexamples and witnesses. -/
def cAnn : Contact :=
  { email := "ann@example.com", firstName := "Ann", lastName := none }

def cBob : Contact :=
  { email := "bob@example.com", firstName := "Bob", lastName := some "Stone" }

def cAnn2 : Contact :=
  { email := "ann@example.com", firstName := "Anne", lastName := some "Lee" }

/-! Helper lemmas shared by several claims. -/

theorem processBatch_counters (st : ImportState) (o : Option String) :
    (processBatch st o).validCount = st.validCount ∧
    (processBatch st o).invalidCount = st.invalidCount ∧
    (processBatch st o).totalCount = st.totalCount := by
  cases o <;> simp only [processBatch] <;> split <;> (try split) <;>
    exact ⟨rfl, rfl, rfl⟩

theorem processBatch_band (st : ImportState) (o : Option String)
    (h : bandInv st) : bandInv (processBatch st o) := by
  obtain ⟨h1, h2⟩ := h
  cases o <;> simp only [processBatch, bandInv] <;> split <;> (try split) <;>
    simp only [Nat.min_def, Nat.max_def] <;>
    first
    | (constructor <;> split <;> omega)
    | (constructor <;> omega)

theorem flushBuffer_pipeInv (env : Nat → Option String) (p : Pipeline)
    (hs : statsInv p.state) (hb : bandInv p.state) :
    pipeInv (flushBuffer env p) := by
  obtain ⟨c1, c2, c3⟩ := processBatch_counters p.state (env (p.state.currentBatch + 1))
  have hband := processBatch_band p.state (env (p.state.currentBatch + 1)) hb
  refine ⟨?_, hband, ?_⟩
  · simp only [statsInv, flushBuffer] at hs ⊢
    omega
  · obtain ⟨hb1, hb2⟩ := hband
    simp only [flushBuffer, List.length_nil]
    omega

theorem stepRow_pipeInv (env : Nat → Option String) (p : Pipeline)
    (e : RowEvent) (h : pipeInv p) : pipeInv (stepRow env p e) := by
  obtain ⟨hs, hb, hl⟩ := h
  cases e with
  | invalid =>
      refine ⟨?_, hb, hl⟩
      simp only [statsInv, stepRow] at hs ⊢
      omega
  | valid c =>
      simp only [stepRow]
      split
      · apply flushBuffer_pipeInv
        · simp only [statsInv] at hs ⊢
          omega
        · exact hb
      · refine ⟨?_, hb, ?_⟩
        · simp only [statsInv] at hs ⊢
          omega
        · rename_i hcond
          simp only [not_le] at hcond
          simpa using hcond

theorem runRows_pipeInv (env : Nat → Option String) (events : List RowEvent)
    (p : Pipeline) (h : pipeInv p) : pipeInv (runRows env p events) := by
  induction events generalizing p with
  | nil => exact h
  | cons e es ih => exact ih (stepRow env p e) (stepRow_pipeInv env p e h)

theorem initPipeline_pipeInv : pipeInv initPipeline := by
  refine ⟨rfl, ?_, ?_⟩ <;>
    simp [initPipeline, initialImportState, bandInv]

theorem finishStream_pipeInv (env : Nat → Option String) (p : Pipeline)
    (h : pipeInv p) : pipeInv (finishStream env p) := by
  obtain ⟨hs, hb, hl⟩ := h
  simp only [finishStream]
  split
  · refine ⟨?_, processBatch_band _ _ hb, ?_⟩
    · obtain ⟨c1, c2, c3⟩ :=
        processBatch_counters p.state (env (p.state.currentBatch + 1))
      simp only [statsInv, flushBuffer] at hs ⊢
      omega
    · obtain ⟨hb1, hb2⟩ :=
        processBatch_band p.state (env (p.state.currentBatch + 1)) hb
      simp only [flushBuffer, List.length_nil]
      omega
  · exact ⟨hs, hb, hl⟩

/-! Claim theorems. -/

/-- C1: for every environment of batch outcomes and every sequence of row
events, the stats satisfy total = valid + invalid at every observation
point: after any prefix of the rows (each row counted exactly once, valid
rows by the batch stage, invalid rows by the validator) and at completion
after the end-of-stream flush. -/
theorem C1_total_eq_valid_plus_invalid (env : Nat → Option String)
    (pre suf : List RowEvent) :
    statsInv (runRows env initPipeline pre).state ∧
    statsInv (importRun env (pre ++ suf)).state :=
  ⟨(runRows_pipeInv env pre initPipeline initPipeline_pipeInv).1,
   (finishStream_pipeInv env _
      (runRows_pipeInv env (pre ++ suf) initPipeline initPipeline_pipeInv)).1⟩

/-- C6: over any sequence of row events and batch outcomes the adaptive
flush threshold stays within [50, 500] at every observation point of one
import, and the two adjustments have exactly the claimed shape: growth on
a committed batch whose number is a multiple of 20 is the 1.1 multiple
(Nat floor) capped at the 500 ceiling, shrink on a failed batch is the 0.7
multiple (Nat floor) floored at 50. -/
theorem C6_threshold_band (env : Nat → Option String) (pre suf : List RowEvent)
    (st : ImportState) (msg : String) :
    bandInv (runRows env initPipeline pre).state ∧
    bandInv (importRun env (pre ++ suf)).state ∧
    (processBatch st none).batchSize =
      (if (st.currentBatch + 1) % 20 = 0 ∧ st.batchSize < 500
       then min 500 (st.batchSize * 11 / 10) else st.batchSize) ∧
    (processBatch st (some msg)).batchSize =
      (if 50 < st.batchSize then max 50 (st.batchSize * 7 / 10)
       else st.batchSize) := by
  refine ⟨(runRows_pipeInv env pre initPipeline initPipeline_pipeInv).2.1,
    (finishStream_pipeInv env _
       (runRows_pipeInv env (pre ++ suf) initPipeline initPipeline_pipeInv)).2.1,
    ?_, ?_⟩
  · simp only [processBatch]
    split <;> rfl
  · simp only [processBatch]
    split <;> (try split) <;> rfl

/-- C10: the error path of BatchProcessor.processBatch mutates only the
failed-batch list, the flush threshold and (for a non-transient message)
the fatal-error field; the valid, invalid and total counters are left
untouched, so the records of a permanently failed batch remain counted as
valid in the final stats although they were not persisted. (The
currentBatch increment happens in the attempt, before the error path.) -/
theorem C10_failure_path_frame (st : ImportState) (msg : String) :
    (processBatch st (some msg)).validCount = st.validCount ∧
    (processBatch st (some msg)).invalidCount = st.invalidCount ∧
    (processBatch st (some msg)).totalCount = st.totalCount ∧
    (processBatch st (some msg)).currentBatch = st.currentBatch + 1 ∧
    (processBatch st (some msg)).failedBatches
      = st.failedBatches ++ [st.currentBatch + 1] ∧
    (processBatch st (some msg)).batchSize
      = (if 50 < st.batchSize then max 50 (st.batchSize * 7 / 10)
         else st.batchSize) ∧
    (processBatch st (some msg)).error
      = (if isTransientMessage msg then st.error else some msg) := by
  simp only [processBatch]
  split <;> (try split) <;> simp_all

theorem processBatch_coreView_error_indep (st : ImportState)
    (pe : Option String) (o : Option String) :
    coreView (processBatch { st with error := pe } o)
      = coreView (processBatch st o) := by
  cases o <;> simp only [processBatch, coreView] <;>
    (try split) <;> (try split) <;> simp_all

theorem stepRow_progress_error_indep (env : Nat → Option String) (p : Pipeline)
    (e : RowEvent) (pe : Option String) :
    coreView (stepRow env { p with state := { p.state with error := pe } } e).state
      = coreView (stepRow env p e).state ∧
    (stepRow env { p with state := { p.state with error := pe } } e).buffer
      = (stepRow env p e).buffer ∧
    (stepRow env { p with state := { p.state with error := pe } } e).attempts
      = (stepRow env p e).attempts := by
  cases e with
  | invalid => exact ⟨rfl, rfl, rfl⟩
  | valid c =>
      simp only [stepRow, flushBuffer]
      split <;> refine ⟨?_, rfl, rfl⟩
      · exact processBatch_coreView_error_indep
          { p.state with validCount := p.state.validCount + 1,
                         totalCount := p.state.totalCount + 1 } pe _
      · rfl

set_option maxRecDepth 40000 in
/-- C3 as stated is violated by the code: after a non-transient batch
failure the import neither stops nor reports failure. Concretely, with 101
valid rows and batch 1 rejecting with a non-transient message, batch 2 is
still attempted (the end-of-stream flush of the remaining row) and the
final result has success = true; only the state's error field remembers
the message, and import never reads it. -/
theorem C3_counterexample :
    isTransientMessage "duplicate key violation" = false ∧
    (importRun (fun n => if n = 1 then some "duplicate key violation" else none)
        (List.replicate 101 (RowEvent.valid cAnn))).attempts.map Prod.fst
      = [1, 2] ∧
    (importRun (fun n => if n = 1 then some "duplicate key violation" else none)
        (List.replicate 101 (RowEvent.valid cAnn))).state.error
      = some "duplicate key violation" ∧
    (importResult (fun n => if n = 1 then some "duplicate key violation" else none)
        (List.replicate 101 (RowEvent.valid cAnn))).success = true := by
  decide

/-- C3 amended: a non-transient batch failure records the batch in the
failed-batch list and stores its message in the state's fatal-error field,
but the import is not halted: the final result always has success = true
with no surfaced error, and the pipeline's progress (counters, buffer,
batch attempts) is entirely independent of the fatal-error field, so every
later batch is still attempted. -/
theorem C3_amended (env : Nat → Option String) (events : List RowEvent)
    (st : ImportState) (msg : String) (p : Pipeline) (e : RowEvent)
    (pe : Option String) :
    (importResult env events).success = true ∧
    (importResult env events).error = none ∧
    (processBatch st (some msg)).failedBatches
      = st.failedBatches ++ [st.currentBatch + 1] ∧
    (processBatch st (some msg)).error
      = (if isTransientMessage msg then st.error else some msg) ∧
    coreView (stepRow env { p with state := { p.state with error := pe } } e).state
      = coreView (stepRow env p e).state ∧
    (stepRow env { p with state := { p.state with error := pe } } e).buffer
      = (stepRow env p e).buffer ∧
    (stepRow env { p with state := { p.state with error := pe } } e).attempts
      = (stepRow env p e).attempts := by
  obtain ⟨h1, h2, h3⟩ := stepRow_progress_error_indep env p e pe
  refine ⟨rfl, rfl, ?_, ?_, h1, h2, h3⟩
  · simp only [processBatch]
    split <;> (try split) <;> simp_all
  · simp only [processBatch]
    split <;> (try split) <;> simp_all

/-- C5 as stated is violated by the code: saveMany's retry loop never
classifies the caught error; a non-transient failure (message mentioning
neither timeout nor network) on the first attempt is followed by a second
attempt. -/
theorem C5_counterexample :
    isTransientMessage "duplicate key violation" = false ∧
    runRetryLoop
        (fun rc => if rc = 0 then some "duplicate key violation" else none)
      = { attempts := [0, 1], delays := [3000], result := .ok 1 } := by
  decide

/-- C5 amended: every saveBatch failure, of any class, is retried while
retryCount is at most MAX_RETRIES = 5, after a delay of
RETRY_DELAY_MS * 2 ^ (n - 1) milliseconds before the nth retry; the
(MAX_RETRIES + 1)th consecutive failure ends the loop by rethrowing that
attempt's error, and a success ends the loop at once. -/
theorem C5_amended (m : Nat → String) :
    runRetryLoop (fun k => some (m k))
      = { attempts := [0, 1, 2, 3, 4, 5]
          delays := [3000, 6000, 12000, 24000, 48000]
          result := .error (m 5) } ∧
    runRetryLoop (fun k => if k = 0 then some (m 0) else none)
      = { attempts := [0, 1], delays := [3000], result := .ok 1 } := by
  constructor <;> rfl

theorem chunkAt_length_le (contacts : List Contact) (bn : Nat) :
    (chunkAt contacts bn).length ≤ SUPABASE_BATCH_SIZE := by
  simp only [chunkAt, List.length_take]
  exact Nat.min_le_left _ _

theorem saveManyGo_recs (outcome : Nat → Nat → Option String)
    (contacts : List Contact) (remaining : Nat) : ∀ (bn : Nat),
    ∀ r ∈ (saveManyGo outcome contacts remaining bn).1,
      r.chunkLen = (chunkAt contacts r.batchNumber).length := by
  induction remaining with
  | zero => intro bn r hr; simp [saveManyGo] at hr
  | succ k ih =>
      intro bn r hr
      simp only [saveManyGo] at hr
      cases htr : (runRetryLoop (outcome bn)).result with
      | error msg =>
          rw [htr] at hr
          simp only [List.mem_map] at hr
          obtain ⟨rc, _, hrc⟩ := hr
          subst hrc
          rfl
      | ok j =>
          rw [htr] at hr
          simp only [List.mem_append, List.mem_map] at hr
          rcases hr with ⟨rc, _, hrc⟩ | hmem
          · subst hrc
            rfl
          · exact ih (bn + 1) r hmem

/-- C7 as stated is violated by the code: the current saveMany slices
batches at the fixed SUPABASE_BATCH_SIZE = 500 and a retry reuses exactly
the same chunk; the per-retry halving exists only in the part_006
iteration's processBatches. Concretely, after a first-attempt timeout the
retry attempt (k = 1) still executes the full 10-record chunk instead of
the claimed 10 / 2 ^ 1. -/
theorem C7_counterexample :
    (saveMany (fun bn rc => if bn = 1 ∧ rc = 0 then some "timeout" else none)
        (List.replicate 10 cAnn)).1
      = [⟨1, 0, 10⟩, ⟨1, 1, 10⟩] ∧
    (10 : Nat) / 2 ^ 1 ≠ 10 := by
  decide

/-- C7 amended: every executed chunk holds at most SUPABASE_BATCH_SIZE =
500 records, hence at most 1500 bound parameters at 3 per record — within
the 32767 ceiling the part_006 iteration derives as half the engine's
65535 hard limit — and a chunk's size depends only on its batch number
(the slice of the contact list), never on the retry attempt. -/
theorem C7_amended (outcome : Nat → Nat → Option String)
    (contacts : List Contact) :
    ∀ r ∈ (saveMany outcome contacts).1,
      r.chunkLen ≤ SUPABASE_BATCH_SIZE ∧
      r.chunkLen * 3 ≤ 32767 ∧
      r.chunkLen = (chunkAt contacts r.batchNumber).length := by
  intro r hr
  have hlen : r.chunkLen = (chunkAt contacts r.batchNumber).length := by
    simp only [saveMany] at hr
    split at hr
    · simp at hr
    · exact saveManyGo_recs outcome contacts _ 1 r hr
  have hle : r.chunkLen ≤ SUPABASE_BATCH_SIZE := by
    rw [hlen]; exact chunkAt_length_le contacts r.batchNumber
  refine ⟨hle, ?_, hlen⟩
  have : SUPABASE_BATCH_SIZE = 500 := rfl
  omega

theorem C7_amended_witness :
    ({ batchNumber := 1, retryCount := 1, chunkLen := 10 : AttemptRec }.chunkLen
        ≤ SUPABASE_BATCH_SIZE) ∧
    ({ batchNumber := 1, retryCount := 1, chunkLen := 10 : AttemptRec }.chunkLen
        * 3 ≤ 32767) := by
  have h := C7_amended
    (fun bn rc => if bn = 1 ∧ rc = 0 then some "timeout" else none)
    (List.replicate 10 cAnn)
    { batchNumber := 1, retryCount := 1, chunkLen := 10 } (by decide)
  exact ⟨h.1, h.2.1⟩

theorem joinBatches_append (a b : List (Nat × List Contact)) :
    joinBatches (a ++ b) = joinBatches a ++ joinBatches b := by
  simp [joinBatches]

theorem runRows_flow (env : Nat → Option String) (events : List RowEvent)
    (p : Pipeline) :
    joinBatches (runRows env p events).attempts ++ (runRows env p events).buffer
      = (joinBatches p.attempts ++ p.buffer) ++ validContacts events := by
  induction events generalizing p with
  | nil => simp [runRows, validContacts]
  | cons e es ih =>
      have step := ih (stepRow env p e)
      rw [show runRows env p (e :: es) = runRows env (stepRow env p e) es from rfl,
        step]
      cases e with
      | invalid => simp [stepRow, validContacts]
      | valid c =>
          simp only [stepRow]
          split
          · simp [flushBuffer, joinBatches_append, joinBatches, validContacts]
          · simp [validContacts, List.append_assoc]

theorem finishStream_flow (env : Nat → Option String) (p : Pipeline) :
    joinBatches (finishStream env p).attempts
      = joinBatches p.attempts ++ p.buffer ∧
    (finishStream env p).buffer = [] := by
  simp only [finishStream]
  split
  · simp [flushBuffer, joinBatches_append, joinBatches]
  · rename_i h
    have hb : p.buffer = [] := by
      simpa [List.length_eq_zero] using h
    simp [hb]

/-- C8: after any prefix of the rows the accumulator's buffer holds at most
the current flush threshold's worth of records; a flush always empties the
buffer; and on normal end of input the pipeline's buffer is empty while
the concatenation of all flushed batches is exactly the sequence of
accepted records, so no accepted record is left unflushed on normal
completion. -/
theorem C8_accumulator_bounds (env : Nat → Option String)
    (pre events : List RowEvent) (q : Pipeline) :
    (runRows env initPipeline pre).buffer.length
      ≤ (runRows env initPipeline pre).state.batchSize ∧
    (flushBuffer env q).buffer = [] ∧
    (importRun env events).buffer = [] ∧
    joinBatches (importRun env events).attempts = validContacts events := by
  refine ⟨?_, rfl, ?_, ?_⟩
  · exact le_of_lt
      (runRows_pipeInv env pre initPipeline initPipeline_pipeInv).2.2
  · exact (finishStream_flow env _).2
  · have h1 := (finishStream_flow env (runRows env initPipeline events)).1
    have h2 := runRows_flow env events initPipeline
    simp only [importRun]
    rw [h1, h2]
    simp [joinBatches, initPipeline]

/-- C2 is violated by the code: identifyColumnsFromStream assigns the fixed
column names whatever the header row holds and has no failure path, so an
input without any first-name column is not rejected at setup; every data
row is processed, fails validation for the missing required field, and is
counted invalid, and the import still reports success with total equal to
the number of rows (not 0). -/
theorem C2_missing_column_not_fatal :
    (∀ headers : List String,
      identifyColumnsFromStream headers
        = { email := some "email", firstName := some "first_name",
            lastName := some "last_name" }) ∧
    importCsv sampleEmailOk (fun _ => none)
        [[("email", "ann@example.com"), ("last_name", "Lee")]]
      = { success := true, error := none, totalProcessed := 1,
          validContacts := 0, invalidContacts := 1 } := by
  refine ⟨fun _ => rfl, ?_⟩
  decide

theorem applyConflictUpdate_fst (c : Contact) (r : StoreRow) :
    (applyConflictUpdate c r).1 = r.1 := by
  simp only [applyConflictUpdate]
  split <;> rfl

theorem storeKeys_map_update (c : Contact) (s : Store) :
    storeKeys (s.map (applyConflictUpdate c)) = storeKeys s := by
  induction s with
  | nil => rfl
  | cons r rs ih => simp_all [storeKeys, applyConflictUpdate_fst]

theorem any_key_map_update (c : Contact) (s : Store) (k : String) :
    (s.map (applyConflictUpdate c)).any (fun r => r.1 == k)
      = s.any (fun r => r.1 == k) := by
  induction s with
  | nil => rfl
  | cons r rs ih => simp [applyConflictUpdate_fst, ih]

theorem upsertOne_contains_self (s : Store) (c : Contact) :
    (upsertOne s c).any (fun r => r.1 == c.email) = true := by
  simp only [upsertOne]
  split
  · rename_i h
    rwa [any_key_map_update]
  · simp

theorem upsertOne_contains_mono (s : Store) (c : Contact) (k : String)
    (h : s.any (fun r => r.1 == k) = true) :
    (upsertOne s c).any (fun r => r.1 == k) = true := by
  simp only [upsertOne]
  split
  · rwa [any_key_map_update]
  · simp [List.any_append, h]

theorem upsertMany_contains_mono (cs : List Contact) (s : Store) (k : String)
    (h : s.any (fun r => r.1 == k) = true) :
    (upsertMany s cs).any (fun r => r.1 == k) = true := by
  induction cs generalizing s with
  | nil => exact h
  | cons c cs ih => exact ih _ (upsertOne_contains_mono s c k h)

theorem upsertMany_contains_mem (cs : List Contact) (s : Store) (c : Contact)
    (hc : c ∈ cs) :
    (upsertMany s cs).any (fun r => r.1 == c.email) = true := by
  induction cs generalizing s with
  | nil => cases hc
  | cons d ds ih =>
      rcases List.mem_cons.mp hc with rfl | hmem
      · exact upsertMany_contains_mono ds _ _ (upsertOne_contains_self s c)
      · exact ih _ hmem

theorem upsertMany_eq_replaceMany (cs : List Contact) (s : Store)
    (h : ∀ c ∈ cs, s.any (fun r => r.1 == c.email) = true) :
    upsertMany s cs = replaceMany s cs := by
  induction cs generalizing s with
  | nil => rfl
  | cons c cs ih =>
      have hc := h c (List.mem_cons_self c cs)
      have hone : upsertOne s c = s.map (applyConflictUpdate c) := by
        simp only [upsertOne, hc, if_true]
      show upsertMany (upsertOne s c) cs
        = replaceMany (s.map (applyConflictUpdate c)) cs
      rw [hone]
      refine ih _ fun d hd => ?_
      rw [any_key_map_update]
      exact h d (List.mem_cons_of_mem c hd)

theorem replaceMany_eq_map (cs : List Contact) (s : Store) :
    replaceMany s cs = s.map (applyAll cs) := by
  induction cs generalizing s with
  | nil =>
      show s = s.map (applyAll [])
      exact (List.map_id s).symm
  | cons c cs ih =>
      show replaceMany (s.map (applyConflictUpdate c)) cs = _
      rw [ih, List.map_map]
      rfl

theorem lastMatch_cons (c : Contact) (cs : List Contact) (k : String) :
    lastMatch (c :: cs) k
      = ((lastMatch cs k).or (if c.email == k then some c else none)) := by
  simp [lastMatch, List.find?_append]

theorem applyAll_eq (cs : List Contact) (r : StoreRow) :
    applyAll cs r
      = (match lastMatch cs r.1 with
         | some c => (r.1, c.firstName, c.lastName)
         | none => r) := by
  induction cs generalizing r with
  | nil => simp [applyAll, lastMatch]
  | cons c cs ih =>
      show applyAll cs (applyConflictUpdate c r) = _
      rw [ih, lastMatch_cons, applyConflictUpdate_fst]
      cases h : lastMatch cs r.1 with
      | some d => simp [Option.or]
      | none =>
          simp only [Option.none_or]
          by_cases hk : r.1 = c.email
          · simp [applyConflictUpdate, beq_iff_eq, hk]
          · simp [applyConflictUpdate, beq_iff_eq, hk, Ne.symm hk]

theorem mem_upsertOne_key_eq (s : Store) (c : Contact) (r : StoreRow)
    (hr : r ∈ upsertOne s c) (hk : r.1 = c.email) :
    r.2 = (c.firstName, c.lastName) := by
  simp only [upsertOne] at hr
  split at hr
  · obtain ⟨r0, hr0, rfl⟩ := List.mem_map.mp hr
    have hk0 : r0.1 = c.email := by rwa [applyConflictUpdate_fst] at hk
    simp [applyConflictUpdate, beq_iff_eq, hk0]
  · rename_i hcond
    rcases List.mem_append.mp hr with hmem | hmem
    · exfalso
      apply hcond
      exact List.any_eq_true.mpr ⟨r, hmem, by simp [hk]⟩
    · simp only [List.mem_singleton] at hmem
      rw [hmem]

theorem mem_upsertOne_key_ne (s : Store) (c : Contact) (r : StoreRow)
    (hr : r ∈ upsertOne s c) (hk : r.1 ≠ c.email) : r ∈ s := by
  simp only [upsertOne] at hr
  split at hr
  · obtain ⟨r0, hr0, rfl⟩ := List.mem_map.mp hr
    have hk0 : r0.1 ≠ c.email := by rwa [applyConflictUpdate_fst] at hk
    simpa [applyConflictUpdate, beq_iff_eq, hk0] using hr0
  · rcases List.mem_append.mp hr with hmem | hmem
    · exact hmem
    · simp only [List.mem_singleton] at hmem
      exfalso
      exact hk (by rw [hmem])

theorem mem_upsertMany_value (cs : List Contact) (s : Store) (r : StoreRow)
    (hr : r ∈ upsertMany s cs) :
    (match lastMatch cs r.1 with
     | some c => r.2 = (c.firstName, c.lastName)
     | none => r ∈ s) := by
  induction cs generalizing s with
  | nil => simpa [lastMatch] using hr
  | cons c cs ih =>
      have h2 := ih (upsertOne s c) hr
      rw [lastMatch_cons]
      cases h : lastMatch cs r.1 with
      | some d =>
          rw [h] at h2
          simpa [Option.or] using h2
      | none =>
          rw [h] at h2
          simp only [Option.none_or]
          by_cases hk : r.1 = c.email
          · have hval := mem_upsertOne_key_eq s c r h2 hk
            simp [beq_iff_eq, hk, hval]
          · have hmem := mem_upsertOne_key_ne s c r h2 hk
            simp [beq_iff_eq, Ne.symm hk, hmem]

theorem upsertMany_idem (s : Store) (cs : List Contact) :
    upsertMany (upsertMany s cs) cs = upsertMany s cs := by
  rw [upsertMany_eq_replaceMany cs (upsertMany s cs)
        (fun c hc => upsertMany_contains_mem cs s c hc),
      replaceMany_eq_map]
  have hfix : ∀ r ∈ upsertMany s cs, applyAll cs r = r := by
    intro r hr
    rw [applyAll_eq]
    have hv := mem_upsertMany_value cs s r hr
    cases h : lastMatch cs r.1 with
    | some c =>
        rw [h] at hv
        obtain ⟨k, v⟩ := r
        dsimp at hv
        rw [hv]
    | none => rfl
  rw [List.map_congr_left hfix]
  simp

theorem storeKeys_upsertOne (s : Store) (c : Contact) :
    storeKeys (upsertOne s c)
      = (if s.any (fun r => r.1 == c.email) then storeKeys s
         else storeKeys s ++ [c.email]) := by
  simp only [upsertOne]
  split <;> rename_i h
  · exact storeKeys_map_update c s
  · simp [storeKeys]

theorem nodup_storeKeys_upsertOne (s : Store) (c : Contact)
    (h : (storeKeys s).Nodup) : (storeKeys (upsertOne s c)).Nodup := by
  rw [storeKeys_upsertOne]
  split
  · exact h
  · rename_i hc
    have hnot : c.email ∉ storeKeys s := by
      intro hmem
      apply hc
      simp only [storeKeys, List.mem_map] at hmem
      obtain ⟨r, hr, hk⟩ := hmem
      exact List.any_eq_true.mpr ⟨r, hr, by simp [hk]⟩
    simp [List.nodup_append, h, hnot]

theorem nodup_storeKeys_upsertMany (cs : List Contact) (s : Store)
    (h : (storeKeys s).Nodup) : (storeKeys (upsertMany s cs)).Nodup := by
  induction cs generalizing s with
  | nil => exact h
  | cons c cs ih => exact ih _ (nodup_storeKeys_upsertOne s c h)

theorem lookup_map_update (s : Store) (c : Contact)
    (h : s.any (fun r => r.1 == c.email) = true) :
    lookupStore (s.map (applyConflictUpdate c)) c.email
      = some (c.firstName, c.lastName) := by
  induction s with
  | nil => simp at h
  | cons r rs ih =>
      by_cases hk : r.1 == c.email
      · simp [lookupStore, List.find?, applyConflictUpdate, hk]
      · have hrest : rs.any (fun r => r.1 == c.email) = true := by
          simp only [List.any_cons, Bool.or_eq_true] at h
          rcases h with h | h
          · exact absurd h (by simpa using hk)
          · exact h
        have := ih hrest
        simpa [lookupStore, List.find?, applyConflictUpdate, hk] using this

theorem upsertOne_overwrite (s : Store) (c : Contact)
    (h : s.any (fun r => r.1 == c.email) = true) :
    (upsertOne s c).length = s.length ∧
    lookupStore (upsertOne s c) c.email
      = some (c.firstName, c.lastName) := by
  have hone : upsertOne s c = s.map (applyConflictUpdate c) := by
    simp only [upsertOne, h, if_true]
  rw [hone]
  exact ⟨List.length_map s _, lookup_map_update s c h⟩

/-- C9: persistence is an idempotent keyed upsert. Upserting the same
record list twice leaves the store exactly as one application does; keyed
upserts never create a duplicate key (a no-duplicate-keys table stays so);
and upserting a record whose key is already present overwrites the non-key
fields with the incoming values while the number of persisted rows stays
unchanged. -/
theorem C9_upsert_idempotent (s : Store) (cs : List Contact) (c : Contact) :
    upsertMany (upsertMany s cs) cs = upsertMany s cs ∧
    ((storeKeys s).Nodup → (storeKeys (upsertMany s cs)).Nodup) ∧
    (s.any (fun r => r.1 == c.email) = true →
      (upsertOne s c).length = s.length ∧
      lookupStore (upsertOne s c) c.email
        = some (c.firstName, c.lastName)) :=
  ⟨upsertMany_idem s cs,
   fun h => nodup_storeKeys_upsertMany cs s h,
   fun h => upsertOne_overwrite s c h⟩

theorem C9_upsert_idempotent_witness :
    upsertMany (upsertMany [("ann@example.com", "Ann", none)] [cBob]) [cBob]
      = upsertMany [("ann@example.com", "Ann", none)] [cBob] ∧
    (storeKeys (upsertMany [("ann@example.com", "Ann", none)] [cBob])).Nodup ∧
    (upsertOne [("ann@example.com", "Ann", none)] cAnn2).length
      = ([("ann@example.com", "Ann", none)] : Store).length ∧
    lookupStore (upsertOne [("ann@example.com", "Ann", none)] cAnn2) cAnn2.email
      = some (cAnn2.firstName, cAnn2.lastName) := by
  obtain ⟨h1, h2, h3⟩ :=
    C9_upsert_idempotent [("ann@example.com", "Ann", none)] [cBob] cAnn2
  exact ⟨h1, h2 (by decide), (h3 (by decide)).1, (h3 (by decide)).2⟩

/-- C4 is violated by the code: an import that parses completely, hits no
stream error and produces zero valid records still returns success = true
(the part_006 iteration's zero-valid failure branch does not exist in the
current import method). The failing input is a single well-formed row
whose email does not pass the shape check. -/
theorem C4_zero_valid_still_success :
    sampleEmailOk "not-an-email" = false ∧
    importCsv sampleEmailOk (fun _ => none)
        [[("email", "not-an-email"), ("first_name", "Ann")]]
      = { success := true, error := none, totalProcessed := 1,
          validContacts := 0, invalidContacts := 1 } := by
  decide

end ContactsManager
